import Mathlib

/-! Verification of the sandbox environment orchestrator: the Redis-backed
state provider (`worker_redis.py`), the Docker environment controller
(`worker_docker.py`) and the task worker service (`worker_task_worker.py`).
Stateful code is embedded as pure state-passing functions or as a step
relation on an explicit state type; Redis Lua scripts are embedded as
functions on a model of the keys they touch. -/

namespace MistralWorker

/-! ## Distributed lock (`worker_redis.py`, `ACQUIRE_LOCK_SCRIPT` /
`RELEASE_LOCK_SCRIPT`, `acquire_lock` / `release_lock`) -/

/-- A Redis lock key value: `none` when the key is absent, otherwise the
owning client id together with the TTL it was last set with. -/
abbrev LockKey := Option (String × Nat)

/-- `ACQUIRE_LOCK_SCRIPT`: `SET key clientId NX EX timeout`; when that fails
because the key exists, if the stored value equals this client id the TTL is
refreshed via `EXPIRE` (integer reply 1), otherwise the script replies 0 and
changes nothing. Returns the new key value and the script's integer reply. -/
def acquireLockScript (key : LockKey) (clientId : String) (timeout : Nat) :
    LockKey × Nat :=
  match key with
  | none => (some (clientId, timeout), 1)
  | some (owner, t) =>
      if owner = clientId then (some (owner, timeout), 1)
      else (some (owner, t), 0)

/-- `RELEASE_LOCK_SCRIPT`: `DEL` the key only when its stored value equals
this client id; otherwise reply 0 and change nothing. -/
def releaseLockScript (key : LockKey) (clientId : String) : LockKey × Nat :=
  match key with
  | none => (none, 0)
  | some (owner, t) =>
      if owner = clientId then (none, 1)
      else (some (owner, t), 0)

/-- `RedisStateProvider.acquire_lock`: run the acquire script and coerce the
integer reply to a boolean (`bool(...)` in the source). -/
def acquire_lock (key : LockKey) (clientId : String) (timeout : Nat) :
    LockKey × Bool :=
  let r := acquireLockScript key clientId timeout
  (r.1, r.2 != 0)

/-- `RedisStateProvider.release_lock`: run the release script, discarding the
integer reply. -/
def release_lock (key : LockKey) (clientId : String) : LockKey :=
  (releaseLockScript key clientId).1

/-! ## Key layout and the reuse-threshold query (`worker_redis.py`) -/

/-- `RedisStateProvider._container_key_prefix`. -/
def container_key_prefix (pfx cid : String) : String :=
  pfx ++ "container:" ++ cid ++ ":"

/-- `RedisStateProvider._container_uses_key`. -/
def container_uses_key (pfx cid : String) : String :=
  container_key_prefix pfx cid ++ "uses"

/-- The name the final `return` statement of `KEYS_VALUE_GTE_SCRIPT` reads:
the script accumulates its matches in the local `result` but ends with
`return res`. -/
def keysValueGteReturnVar : String := "res"

/-- `KEYS_VALUE_GTE_SCRIPT`, evaluated against an abstract Redis instance:
`keysOf pat` models `redis.call("KEYS", pat)` and `getNum k` models
`tonumber(redis.call("GET", k))`. The loop fills the local table `result`
with every key whose numeric value reaches the threshold; the final statement
then returns the variable named `res`, looked up among the names the script
has bound. Redis executes scripts under global-variable protection, so
reading an unbound name raises a script error rather than yielding nil. -/
def evalKeysValueGteScript (keysOf : String → List String)
    (getNum : String → Option Nat) (pat : String) (threshold : Nat) :
    Except String (List String) :=
  let result := (keysOf pat).filter fun k =>
    match getNum k with
    | some v => decide (threshold ≤ v)
    | none => false
  let boundVars : List (String × List String) := [("result", result)]
  match boundVars.lookup keysValueGteReturnVar with
  | some v => Except.ok v
  | none =>
      Except.error "Script attempted to access nonexistent global variable"

/-- `key.split(':')[-2]`, as used on each returned key. -/
def keySecondFromLast (k : String) : String :=
  ((k.splitOn ":").reverse.get? 1).getD ""

/-- `RedisStateProvider.containers_total_uses_gte`: evaluate the script over
the uses-key pattern and map each returned key to its container id segment. -/
def containers_total_uses_gte (keysOf : String → List String)
    (getNum : String → Option Nat) (pfx : String) (threshold : Nat) :
    Except String (List String) :=
  (evalKeysValueGteScript keysOf getNum (container_uses_key pfx "*") threshold).map
    fun keys => keys.map keySecondFromLast

/-! ## Shared-pool candidate scan and retry loop
(`worker_docker.py`, `start_session` lines 151-178) and the
reuse-limit phase of the reclamation sweep (`_clean_containers`
lines 565-575) -/

/-- The candidate scan of `start_session` (lines 162-168): walk the shuffled
candidate list, skip a container whose lifetime uses have reached a positive
`usage_limit` (`0 < usage_limit <= container_total_uses`) or whose current
uses have reached a positive `concurrency_limit`, and select the first
container that passes both checks. -/
def select_shared_container (usage_limit concurrency_limit : Nat)
    (total_uses current_uses : String → Nat) : List String → Option String
  | [] => none
  | c :: rest =>
    if 0 < usage_limit ∧ usage_limit ≤ total_uses c then
      select_shared_container usage_limit concurrency_limit total_uses
        current_uses rest
    else if 0 < concurrency_limit ∧ concurrency_limit ≤ current_uses c then
      select_shared_container usage_limit concurrency_limit total_uses
        current_uses rest
    else some c

/-- The `while True` retry loop of `start_session` (lines 158-178), with the
engine's container creation abstracted by `fresh`: scan the candidates; when
no candidate qualifies, create container `fresh k` outside the lock, append it
to the candidates, and re-scan. `fuel` bounds the number of scans performed;
`k` counts the containers created so far. The store counters are those
observed during the scans (no interfering allocator). -/
def allocation_loop (usage_limit concurrency_limit : Nat)
    (total_uses current_uses : String → Nat) (fresh : Nat → String) :
    Nat → Nat → List String → Option String
  | 0, _, _ => none
  | fuel + 1, k, cands =>
    match select_shared_container usage_limit concurrency_limit total_uses
        current_uses cands with
    | some c => some c
    | none =>
        allocation_loop usage_limit concurrency_limit total_uses current_uses
          fresh fuel (k + 1) (cands ++ [fresh k])

/-- The reuse-limit phase of `_clean_containers` (lines 565-575) for one
subtype: with a finite `usage_limit`, collect for deletion every identified
shared container that is not currently allocated
(`container_is_allocated`, i.e. `container_current_uses > 0`, is false) and
whose lifetime uses have reached the limit. -/
def clean_reuse_sweep (usage_limit : Nat) (total_uses current_uses : String → Nat)
    (containers : List String) : List String :=
  if usage_limit = 0 then []
  else containers.filter fun c =>
    if 0 < current_uses c then false
    else if total_uses c < usage_limit then false
    else true

/-! ## Concurrency-limit invariant: the allocation protocol of
`start_session` as a step relation (`worker_docker.py` lines 136-202 together
with `RedisStateProvider.allocate_container` / marker expiry) -/

/-- Program counter of one session inside the shared-allocation critical
section of `start_session`: `holding` after `with_lock` has granted the
subtype's allocation lock, `checked c` once the scan has observed container
`c` within budget (lines 162-168), and back to `idle` after
`allocate_container` ran (or the section was left without allocating). -/
inductive AllocPc where
  | idle : AllocPc
  | holding : AllocPc
  | checked : String → AllocPc
deriving DecidableEq

/-- Global state of one subtype's allocation protocol: the holder of the
subtype's distributed allocation lock, the live (non-expired) allocation
markers of each container (the `container:<id>:allocation:<session>` keys),
and each session's position in the critical section. -/
structure AllocState where
  lock : Option Nat
  markers : String → Finset Nat
  pc : Nat → AllocPc

/-- `RedisStateProvider.container_current_uses`: the number of live allocation
markers of a container. -/
def container_current_uses (σ : AllocState) (c : String) : Nat :=
  (σ.markers c).card

/-- One step of the allocation protocol. `exclusive` tags the container ids
created with `exclusive=True`; `N` is the subtype's `concurrency_limit`.
`check` is the scan of lines 162-168 (it requires the lock and, for a
positive limit, `container_current_uses < N`); `allocate` is the
`allocate_container` call of line 172, still under the lock;
`allocate_exclusive` is the lock-free `allocate_container` of lines 141 and
188, which only ever targets containers created exclusive; `expire_marker`
models marker TTL expiry and `release_container`, both of which only remove
markers. Modelled from the spec: `StateProvider.with_lock` (whose source is
not among these files) acquires the named allocation lock before its body and
releases it afterwards, per "under that subtype's lock"; `acquire` and
`release_lock` are its two halves. -/
inductive AllocStep (exclusive : String → Bool) (N : Nat) :
    AllocState → AllocState → Prop where
  | acquire (σ : AllocState) (a : Nat) :
      σ.lock = none → σ.pc a = AllocPc.idle →
      AllocStep exclusive N σ
        ⟨some a, σ.markers, Function.update σ.pc a AllocPc.holding⟩
  | check (σ : AllocState) (a : Nat) (c : String) :
      σ.lock = some a → σ.pc a = AllocPc.holding → exclusive c = false →
      (N = 0 ∨ container_current_uses σ c < N) →
      AllocStep exclusive N σ
        ⟨σ.lock, σ.markers, Function.update σ.pc a (AllocPc.checked c)⟩
  | allocate (σ : AllocState) (a : Nat) (c : String) :
      σ.lock = some a → σ.pc a = AllocPc.checked c →
      AllocStep exclusive N σ
        ⟨σ.lock, Function.update σ.markers c (insert a (σ.markers c)),
          Function.update σ.pc a AllocPc.idle⟩
  | allocate_exclusive (σ : AllocState) (a : Nat) (c : String) :
      exclusive c = true →
      AllocStep exclusive N σ
        ⟨σ.lock, Function.update σ.markers c (insert a (σ.markers c)), σ.pc⟩
  | release_lock (σ : AllocState) (a : Nat) :
      σ.lock = some a →
      AllocStep exclusive N σ ⟨none, σ.markers, σ.pc⟩
  | expire_marker (σ : AllocState) (s : Nat) (c : String) :
      AllocStep exclusive N σ
        ⟨σ.lock, Function.update σ.markers c ((σ.markers c).erase s), σ.pc⟩

/-- Initial state: lock free, no allocation markers, every session idle. -/
def allocInit : AllocState :=
  ⟨none, fun _ => ∅, fun _ => AllocPc.idle⟩

/-- The states the allocation protocol can reach from the initial state. -/
inductive AllocReachable (exclusive : String → Bool) (N : Nat) :
    AllocState → Prop where
  | init : AllocReachable exclusive N allocInit
  | step (σ σ' : AllocState) :
      AllocReachable exclusive N σ → AllocStep exclusive N σ σ' →
      AllocReachable exclusive N σ'

/-- Inductive invariant: every shared container stays within the concurrency
budget, and a session that has passed the scan while still holding the lock
observed room for one more marker. -/
def AllocInv (exclusive : String → Bool) (N : Nat) (σ : AllocState) : Prop :=
  ∀ c, exclusive c = false →
    (0 < N → (σ.markers c).card ≤ N)
    ∧ (∀ a, σ.lock = some a → σ.pc a = AllocPc.checked c →
        N = 0 ∨ (σ.markers c).card < N)

/-! ## Session teardown (`worker_docker.py`, `end_session` lines 228-248,
over the store operations of `worker_redis.py`) -/

/-- The session record stored by `start_session` (the `SessionData`
TypedDict): the subtype-to-container map and the exclusively owned container
ids. -/
structure SessionData where
  containers : List (String × String)
  exclusive_containers : List String

/-- The slice of the shared store and the engine that `end_session` touches:
session records keyed by session id, allocation markers keyed by container
and session, lifetime-use counters, and which containers exist in the
engine. -/
structure Store where
  sessions : Nat → Option SessionData
  allocation : String → Nat → Bool
  uses : String → Nat
  engine : String → Bool

/-- `RedisStateProvider.get_session`; a missing (or unparsable) record yields
`none`. -/
def get_session (st : Store) (sid : Nat) : Option SessionData :=
  st.sessions sid

/-- `RedisStateProvider.delete_session`: `DEL` the session key. -/
def delete_session (st : Store) (sid : Nat) : Store :=
  { st with sessions := Function.update st.sessions sid none }

/-- `RedisStateProvider.release_container`: delete the allocation marker of
this container/session pair, leaving the lifetime counter alone. -/
def release_container (st : Store) (cid : String) (sid : Nat) : Store :=
  { st with allocation := fun c s =>
      if c = cid ∧ s = sid then false else st.allocation c s }

/-- `RedisStateProvider.remove_container`: delete every key under the
container's prefix — all its allocation markers and its uses counter. -/
def remove_container (st : Store) (cid : String) : Store :=
  { st with
      allocation := fun c s => if c = cid then false else st.allocation c s,
      uses := Function.update st.uses cid 0 }

/-- `DockerEnvironmentController.delete_container`: force-remove the
container from the engine (tolerating an already-gone container) and purge
its store keys. Open shells and the dependency label are not modelled. -/
def delete_container (st : Store) (cid : String) : Store :=
  remove_container { st with engine := Function.update st.engine cid false } cid

/-- `DockerEnvironmentController.end_session` (lines 228-248): when the
session record exists, release — under the owning subtype's allocation lock —
the marker of every container of the session map that is not listed in
`exclusive_containers`, then delete every exclusive container outright, and
finally delete the session record; with no record only the final delete
runs (which is a no-op on an absent key). -/
def end_session (st : Store) (sid : Nat) : Store :=
  match get_session st sid with
  | some sess =>
      let shared := sess.containers.filter fun p =>
        decide (p.2 ∉ sess.exclusive_containers)
      let st1 := shared.foldl (fun acc p => release_container acc p.2 sid) st
      let st2 := sess.exclusive_containers.foldl
        (fun acc cid => delete_container acc cid) st1
      delete_session st2 sid
  | none => delete_session st sid

/-! ## The exclusive-versus-shared allocation plan of `start_session`
(`worker_docker.py` lines 126-202) -/

/-- Static environment of one `start_session` call: the delegation's
per-subtype limits (`get_reuse_limit` / `get_concurrency_limit`), the store
counters as observed during the scans, the engine's shared candidates per
subtype (`_identify_containers`), and the ids the engine assigns to the
containers created during the call (exclusive ones per subtype, shared ones
per subtype and retry iteration). -/
structure AllocEnv where
  reuse_limit : String → Nat
  concurrency_limit : String → Nat
  total_uses : String → Nat
  current_uses : String → Nat
  candidates : String → List String
  fresh_exclusive : String → String
  fresh_shared : String → Nat → String

/-- The branch condition of lines 137-138:
`usage_limit == 1 or (usage_limit != 0 and not immutable)` sends a subtype to
the exclusive path. -/
def exclusive_path (env : AllocEnv) (immutable : Bool) (s : String) : Bool :=
  env.reuse_limit s == 1 || (env.reuse_limit s != 0 && !immutable)

/-- The shared-pool allocation of one subtype: the retry loop over that
subtype's candidates with that subtype's limits. -/
def allocate_shared (env : AllocEnv) (s : String) : Option String :=
  allocation_loop (env.reuse_limit s) (env.concurrency_limit s)
    env.total_uses env.current_uses (env.fresh_shared s) 2 0 (env.candidates s)

/-- The shared phase of `start_session` (lines 151-178): allocate each
non-exclusive subtype in order through the shared pool; `none` when some
subtype's loop still found nothing after its re-scan. -/
def plan_shared (env : AllocEnv) : List String → Option (List (String × String))
  | [] => some []
  | s :: rest =>
      match allocate_shared env s with
      | none => none
      | some c => (plan_shared env rest).map fun ps => (s, c) :: ps

/-- Pure model of `start_session` without the homepage container: subtypes on
the exclusive path each get a brand-new exclusive container; the rest go
through the shared pool. Returns the `containers` map of the stored
`SessionData`, its `exclusive_containers` list, and the ordered log of
`allocate_container` calls made. -/
def start_session_plan (env : AllocEnv) (immutable : Bool)
    (subtypes : List String) :
    Option (List (String × String) × List String × List String) :=
  let exclSubs := subtypes.filter (exclusive_path env immutable)
  let sharedSubs := subtypes.filter fun s => !(exclusive_path env immutable s)
  let exclPairs := exclSubs.map fun s => (s, env.fresh_exclusive s)
  match plan_shared env sharedSubs with
  | none => none
  | some sharedPairs =>
      some (exclPairs ++ sharedPairs,
        exclPairs.map (fun p => p.2),
        exclPairs.map (fun p => p.2) ++ sharedPairs.map fun p => p.2)

/-! ## Engine-call retry helper (`worker_docker.py`, `_docker_call`
lines 92-116) -/

/-- Outcome of one attempt of an engine operation: a value, a `DockerError`
with its HTTP status, or a transport-level error
(`aiohttp.ClientError` / `asyncio.TimeoutError`). -/
inductive AttemptResult (α : Type) where
  | ok : α → AttemptResult α
  | dockerError : Nat → AttemptResult α
  | transportError : AttemptResult α

/-- Result of `_docker_call`: a returned value or a propagated exception,
each recording how many times `_reset_client` ran. -/
inductive CallOutcome (α : Type) where
  | success : α → Nat → CallOutcome α
  | raisedDocker : Nat → Nat → CallOutcome α
  | raisedTransport : Nat → CallOutcome α
  | outOfFuel : CallOutcome α
deriving DecidableEq

/-- `self._retryable_docker_statuses` (line 68). -/
def retryable_docker_statuses : List Nat := [500, 502, 503, 504, 900]

/-- The `while True` loop of `_docker_call`: `attempts i` is the outcome of
the i-th execution of the operation; on a retryable Docker status or a
transport error with attempts remaining, reset the client and go around;
otherwise re-raise. `fuel` bounds the iterations (never exhausted for
`maxAttempts ≤ fuel`). -/
def docker_call_loop {α : Type} (attempts : Nat → AttemptResult α)
    (maxAttempts : Nat) :
    Nat → Nat → Nat → Nat → CallOutcome α
  | 0, _, _, _ => CallOutcome.outOfFuel
  | fuel + 1, attempt, callIdx, resets =>
      match attempts callIdx with
      | AttemptResult.ok v => CallOutcome.success v resets
      | AttemptResult.dockerError status =>
          if status ∈ retryable_docker_statuses ∧ attempt < maxAttempts - 1 then
            docker_call_loop attempts maxAttempts fuel (attempt + 1)
              (callIdx + 1) (resets + 1)
          else CallOutcome.raisedDocker status resets
      | AttemptResult.transportError =>
          if attempt ≥ maxAttempts - 1 then CallOutcome.raisedTransport resets
          else
            docker_call_loop attempts maxAttempts fuel (attempt + 1)
              (callIdx + 1) (resets + 1)

/-- `_docker_call`: `max_attempts = 2 if retry else 1`, starting at attempt
0 with no resets. -/
def docker_call {α : Type} (retry : Bool) (attempts : Nat → AttemptResult α) :
    CallOutcome α :=
  let maxAttempts := if retry then 2 else 1
  docker_call_loop attempts maxAttempts maxAttempts 0 0 0

/-! ## Turn admission in the task worker (`worker_task_worker.py`,
`TaskWorker.interact` lines 233-244) -/

/-- The slice of `RunningSampleData` (and its session controller) that
`interact` consults: whether the per-session agent lock is currently held and
whether cancellation is in progress. -/
structure RunningSample where
  agent_lock_locked : Bool
  cancelling : Bool

/-- `TaskWorker.interact` admission control: reject with HTTP 400 when the
session id is absent from the running-session map, or when the session's
agent lock is held or the session is cancelling; only otherwise does the turn
start (the `agent_pull` on the session's controller, represented by the
session id it runs for). -/
def interact (session_map : Nat → Option RunningSample) (sid : Nat) :
    Except (Nat × String) Nat :=
  match session_map sid with
  | none => Except.error (400, "No such session")
  | some running =>
      if running.agent_lock_locked || running.cancelling then
        Except.error (400, "Task Executing, please do not send new request.")
      else Except.ok sid

/-! ## Concrete instances used to evaluate the model -/

/-- A concrete session record: a shared "web" container and an exclusive
"db" container. -/
def exampleSession : SessionData :=
  ⟨[("web", "cw"), ("db", "cx")], ["cx"]⟩

/-- A concrete store holding `exampleSession` under session id 5, with both
containers allocated to it and present in the engine. -/
def exampleStore : Store where
  sessions := fun sid => if sid = 5 then some exampleSession else none
  allocation := fun c s => decide ((c = "cw" ∨ c = "cx") ∧ s = 5)
  uses := fun _ => 3
  engine := fun c => decide (c = "cw" ∨ c = "cx")

/-- A concrete allocation environment: subtype "db" has `reuse_limit = 1`
(exclusive path), subtype "web" is unlimited and has no candidates yet. -/
def exampleAllocEnv : AllocEnv where
  reuse_limit := fun s => if s = "db" then 1 else 0
  concurrency_limit := fun _ => 2
  total_uses := fun _ => 0
  current_uses := fun _ => 0
  candidates := fun _ => []
  fresh_exclusive := fun s => s ++ "-x0"
  fresh_shared := fun s k => s ++ "-s" ++ toString k

/-- A concrete engine-call script: the first execution fails with a
retryable 503, the second succeeds. -/
def exampleAttempts : Nat → AttemptResult Nat := fun i =>
  if i = 0 then AttemptResult.dockerError 503 else AttemptResult.ok 7

/-- A concrete running-session map: session 1 has a turn in flight, session
2 is cancelling, everything else is unknown. -/
def exampleSessionMap : Nat → Option RunningSample := fun sid =>
  if sid = 1 then some ⟨true, false⟩
  else if sid = 2 then some ⟨false, true⟩
  else none

/-! ## Theorems -/

/-- The allocation-protocol invariant is preserved by every step. -/
theorem allocInv_step {exclusive : String → Bool} {N : Nat}
    {σ σ' : AllocState} (hinv : AllocInv exclusive N σ)
    (hstep : AllocStep exclusive N σ σ') : AllocInv exclusive N σ' := by
  cases hstep with
  | acquire a hlock hpc =>
      intro c hc
      refine ⟨(hinv c hc).1, ?_⟩
      intro b hb hpcb
      simp only at hb hpcb
      cases hb
      rw [Function.update_same] at hpcb
      exact absurd hpcb (by simp)
  | check a c₀ hlock hpc hexcl hroom =>
      intro c hc
      refine ⟨(hinv c hc).1, ?_⟩
      intro b hb hpcb
      simp only at hb hpcb
      rw [hlock, Option.some_inj] at hb
      subst hb
      rw [Function.update_same] at hpcb
      cases hpcb
      exact hroom
  | allocate a c₀ hlock hpc =>
      intro c hc
      constructor
      · intro hN
        by_cases hcc : c = c₀
        · subst hcc
          simp only [Function.update_same]
          have hroom := ((hinv c hc).2 a hlock hpc).resolve_left (by omega)
          calc (insert a (σ.markers c)).card ≤ (σ.markers c).card + 1 :=
                Finset.card_insert_le a (σ.markers c)
            _ ≤ N := by omega
        · simp only [Function.update_noteq hcc]
          exact (hinv c hc).1 hN
      · intro b hb hpcb
        simp only at hb hpcb
        rw [hlock, Option.some_inj] at hb
        subst hb
        rw [Function.update_same] at hpcb
        exact absurd hpcb (by simp)
  | allocate_exclusive a c₀ hexcl =>
      intro c hc
      have hcc : c ≠ c₀ := fun h => by rw [h, hexcl] at hc; cases hc
      constructor
      · intro hN
        simp only [Function.update_noteq hcc]
        exact (hinv c hc).1 hN
      · intro b hb hpcb
        simp only [Function.update_noteq hcc]
        exact (hinv c hc).2 b hb hpcb
  | release_lock a hlock =>
      intro c hc
      refine ⟨(hinv c hc).1, ?_⟩
      intro b hb
      simp only at hb
      cases hb
  | expire_marker s c₀ =>
      intro c hc
      constructor
      · intro hN
        by_cases hcc : c = c₀
        · subst hcc
          simp only [Function.update_same]
          exact le_trans (Finset.card_erase_le) ((hinv c hc).1 hN)
        · simp only [Function.update_noteq hcc]
          exact (hinv c hc).1 hN
      · intro b hb hpcb
        by_cases hcc : c = c₀
        · subst hcc
          simp only [Function.update_same]
          rcases (hinv c hc).2 b hb hpcb with h0 | hlt
          · exact Or.inl h0
          · exact Or.inr (lt_of_le_of_lt (Finset.card_erase_le) hlt)
        · simp only [Function.update_noteq hcc]
          exact (hinv c hc).2 b hb hpcb

/-- Every reachable state of the allocation protocol satisfies the
invariant. -/
theorem allocReachable_inv {exclusive : String → Bool} {N : Nat}
    {σ : AllocState} (h : AllocReachable exclusive N σ) :
    AllocInv exclusive N σ := by
  induction h with
  | init =>
      intro c hc
      refine ⟨fun _ => ?_, fun a hb _ => ?_⟩
      · simp [allocInit]
      · cases hb
  | step σ σ' hr hs ih => exact allocInv_step ih hs

/-- The scan distributes over list append: the second block is consulted only
when no candidate of the first qualifies. -/
theorem select_shared_container_append (R N : Nat) (tu cu : String → Nat)
    (l₁ l₂ : List String) :
    select_shared_container R N tu cu (l₁ ++ l₂)
      = match select_shared_container R N tu cu l₁ with
        | some c => some c
        | none => select_shared_container R N tu cu l₂ := by
  induction l₁ with
  | nil => simp [select_shared_container]
  | cons c rest ih =>
      by_cases h1 : 0 < R ∧ R ≤ tu c
      · simpa [select_shared_container, h1] using ih
      · by_cases h2 : 0 < N ∧ N ≤ cu c
        · simpa [select_shared_container, h1, h2] using ih
        · simp [select_shared_container, h1, h2]

/-- A container with zero lifetime and zero current uses always passes the
scan: the list consisting of it alone yields it. -/
theorem select_shared_container_fresh (R N : Nat) (tu cu : String → Nat)
    (f : String) (h0 : tu f = 0) (h1 : cu f = 0) :
    select_shared_container R N tu cu [f] = some f := by
  have hg1 : ¬(0 < R ∧ R ≤ tu f) := by omega
  have hg2 : ¬(0 < N ∧ N ≤ cu f) := by omega
  simp [select_shared_container, hg1, hg2]

/-- Two scans always suffice: either the first scan selects a candidate, or
the re-scan selects one (the freshly created container qualifies, having zero
total and zero current uses). -/
theorem allocation_loop_two_scans (R N : Nat) (tu cu : String → Nat)
    (fresh : Nat → String) (k : Nat) (cands : List String)
    (h0 : tu (fresh k) = 0) (h1 : cu (fresh k) = 0) :
    ∃ c, allocation_loop R N tu cu fresh 2 k cands = some c := by
  cases hsel : select_shared_container R N tu cu cands with
  | some c => exact ⟨c, by simp [allocation_loop, hsel]⟩
  | none =>
      refine ⟨fresh k, ?_⟩
      have happ := select_shared_container_append R N tu cu cands [fresh k]
      rw [hsel] at happ
      simp only [allocation_loop, hsel, happ,
        select_shared_container_fresh R N tu cu (fresh k) h0 h1]

/-- C3: `acquire_lock` succeeds when the lock is unheld or already held by the
same owner token (renewing the TTL), and returns false with no side effect
when held by a different token; `release_lock` deletes the lock only when the
releasing token still owns it and is a no-op otherwise — a lock acquired by
token `a` cannot be released by token `b`, and acquiring twice with the same
token renews rather than fails. -/
theorem acquire_release_lock_roundtrip (a b : String) (t0 ttl : Nat)
    (hab : b ≠ a) :
    acquire_lock none a ttl = (some (a, ttl), true)
    ∧ acquire_lock (some (a, t0)) a ttl = (some (a, ttl), true)
    ∧ acquire_lock (some (a, t0)) b ttl = (some (a, t0), false)
    ∧ release_lock (some (a, t0)) b = some (a, t0)
    ∧ release_lock (some (a, t0)) a = none := by
  refine ⟨rfl, ?_, ?_, ?_, ?_⟩ <;>
    simp [acquire_lock, release_lock, acquireLockScript, releaseLockScript,
      hab, Ne.symm hab]

/-- Witness for C3 at concrete tokens. -/
theorem acquire_release_lock_roundtrip_witness :
    acquire_lock none "A" 10 = (some ("A", 10), true)
    ∧ acquire_lock (some ("A", 5)) "A" 10 = (some ("A", 10), true)
    ∧ acquire_lock (some ("A", 5)) "B" 10 = (some ("A", 5), false)
    ∧ release_lock (some ("A", 5)) "B" = some ("A", 5)
    ∧ release_lock (some ("A", 5)) "A" = none :=
  acquire_release_lock_roundtrip "A" "B" 5 10 (by decide)

/-- C7: `containers_total_uses_gte` never successfully returns the list of
container ids whose lifetime-use counter is at least the threshold: for every
store contents, prefix and threshold the call fails, because the embedded Lua
script accumulates matches in a local named `result` but executes
`return res`, a name it never defines. -/
theorem containers_total_uses_gte_always_fails (keysOf : String → List String)
    (getNum : String → Option Nat) (pfx : String) (threshold : Nat) :
    containers_total_uses_gte keysOf getNum pfx threshold
      = Except.error "Script attempted to access nonexistent global variable" := by
  simp [containers_total_uses_gte, evalKeysValueGteScript, keysValueGteReturnVar,
    List.lookup, Except.map]

/-- C2: with `reuse_limit = R > 0`, the candidate scan of `start_session`
never selects a shared container whose lifetime-use counter has already
reached `R` as the basis for a new allocation, and the reclamation sweep
collects for deletion every identified reuse-exhausted container whose
current-use count is zero. -/
theorem reuse_limit_respected (R N : Nat) (tu cu : String → Nat)
    (cands containers : List String) (c d : String) (hR : 0 < R) :
    (select_shared_container R N tu cu cands = some c → tu c < R)
    ∧ (d ∈ containers → cu d = 0 → R ≤ tu d →
        d ∈ clean_reuse_sweep R tu cu containers) := by
  constructor
  · intro hsel
    induction cands with
    | nil => simp [select_shared_container] at hsel
    | cons x rest ih =>
        by_cases h1 : 0 < R ∧ R ≤ tu x
        · rw [select_shared_container, if_pos h1] at hsel
          exact ih hsel
        · by_cases h2 : 0 < N ∧ N ≤ cu x
          · rw [select_shared_container, if_neg h1, if_pos h2] at hsel
            exact ih hsel
          · rw [select_shared_container, if_neg h1, if_neg h2,
              Option.some_inj] at hsel
            subst hsel
            omega
  · intro hmem hcu htu
    have hR0 : R ≠ 0 := Nat.pos_iff_ne_zero.mp hR
    rw [clean_reuse_sweep, if_neg hR0]
    refine List.mem_filter.mpr ⟨hmem, ?_⟩
    rw [hcu]
    simp [Nat.not_lt.mpr htu]

/-- Witness for C2 at concrete limits and counters. -/
theorem reuse_limit_respected_witness :
    (select_shared_container 2 1 (fun s => if s = "c1" then 1 else 2)
        (fun _ => 0) ["c1"] = some "c1" →
      (fun s => if s = "c1" then 1 else 2) "c1" < 2)
    ∧ ("c2" ∈ ["c2"] → (fun _ : String => 0) "c2" = 0 →
        2 ≤ (fun s => if s = "c1" then 1 else 2) "c2" →
        "c2" ∈ clean_reuse_sweep 2 (fun s => if s = "c1" then 1 else 2)
          (fun _ => 0) ["c2"]) :=
  reuse_limit_respected 2 1 (fun s => if s = "c1" then 1 else 2) (fun _ => 0)
    ["c1"] ["c2"] "c1" "c2" (by decide)

/-- C4: the shared-pool allocation loop of `start_session` terminates after a
bounded number of iterations: when no existing candidate qualifies it creates
a new shared container outside the lock, appends it as a candidate and
re-scans under the lock, and the re-scan always allocates because a freshly
created container (zero current uses, zero total uses) always qualifies — two
scans suffice. -/
theorem shared_retry_loop_bounded (R N : Nat) (tu cu : String → Nat)
    (fresh : Nat → String) (cands : List String)
    (h0 : tu (fresh 0) = 0) (h1 : cu (fresh 0) = 0) :
    ∃ c, allocation_loop R N tu cu fresh 2 0 cands = some c :=
  allocation_loop_two_scans R N tu cu fresh 0 cands h0 h1

/-- Witness for C4: with one exhausted candidate, the loop allocates the
freshly created container on the re-scan. -/
theorem shared_retry_loop_bounded_witness :
    ∃ c, allocation_loop 1 2 (fun s => if s = "old" then 1 else 0)
      (fun _ => 0) (fun _ => "new") 2 0 ["old"] = some c :=
  shared_retry_loop_bounded 1 2 (fun s => if s = "old" then 1 else 0)
    (fun _ => 0) (fun _ => "new") ["old"] (by decide) (by decide)

/-- C1: for a subtype with `concurrency_limit = N > 0`, at no reachable state
do more than `N` live (non-expired) allocation markers exist simultaneously
for any one shared (non-exclusive) container: the shared allocation decision
reads `container_current_uses` and calls `allocate_container` only while
holding the subtype's allocation lock, so the marker count of a shared
container never exceeds `N`. -/
theorem concurrency_limit_invariant (exclusive : String → Bool) (N : Nat)
    (σ : AllocState) (c : String) (hreach : AllocReachable exclusive N σ)
    (hN : 0 < N) (hc : exclusive c = false) :
    container_current_uses σ c ≤ N :=
  ((allocReachable_inv hreach) c hc).1 hN

/-- Witness for C1: the state reached by a full acquire-check-allocate-release
round of session 0 keeps the shared container "web" within a concurrency
limit of 1. -/
theorem concurrency_limit_invariant_witness :
    container_current_uses
      ⟨none,
        Function.update allocInit.markers "web"
          (insert 0 (allocInit.markers "web")),
        Function.update (Function.update
          (Function.update allocInit.pc 0 AllocPc.holding)
          0 (AllocPc.checked "web")) 0 AllocPc.idle⟩
      "web" ≤ 1 := by
  have h1 : AllocReachable (fun _ => false) 1
      ⟨some 0, allocInit.markers,
        Function.update allocInit.pc 0 AllocPc.holding⟩ :=
    AllocReachable.step _ _ AllocReachable.init
      (AllocStep.acquire allocInit 0 rfl rfl)
  have h2 : AllocReachable (fun _ => false) 1
      ⟨some 0, allocInit.markers,
        Function.update (Function.update allocInit.pc 0 AllocPc.holding)
          0 (AllocPc.checked "web")⟩ :=
    AllocReachable.step _ _ h1
      (AllocStep.check _ 0 "web" rfl (by simp) rfl
        (Or.inr (by simp [container_current_uses, allocInit])))
  have h3 : AllocReachable (fun _ => false) 1
      ⟨some 0,
        Function.update allocInit.markers "web"
          (insert 0 (allocInit.markers "web")),
        Function.update (Function.update
          (Function.update allocInit.pc 0 AllocPc.holding)
          0 (AllocPc.checked "web")) 0 AllocPc.idle⟩ :=
    AllocReachable.step _ _ h2 (AllocStep.allocate _ 0 "web" rfl (by simp))
  have h4 : AllocReachable (fun _ => false) 1
      ⟨none,
        Function.update allocInit.markers "web"
          (insert 0 (allocInit.markers "web")),
        Function.update (Function.update
          (Function.update allocInit.pc 0 AllocPc.holding)
          0 (AllocPc.checked "web")) 0 AllocPc.idle⟩ :=
    AllocReachable.step _ _ h3 (AllocStep.release_lock _ 0 rfl)
  exact concurrency_limit_invariant (fun _ => false) 1 _ "web" h4
    (by decide) rfl

/-- Releasing a marker never turns an absent marker back on. -/
theorem release_container_allocation_false {st : Store} {c : String} {s : Nat}
    (h : st.allocation c s = false) (cid : String) (sid : Nat) :
    (release_container st cid sid).allocation c s = false := by
  simp only [release_container]
  split
  · rfl
  · exact h

/-- Deleting a container never turns an absent marker back on. -/
theorem delete_container_allocation_false {st : Store} {c : String} {s : Nat}
    (h : st.allocation c s = false) (cid : String) :
    (delete_container st cid).allocation c s = false := by
  simp only [delete_container, remove_container]
  split
  · rfl
  · exact h

/-- Deleting a container never resurrects a container in the engine. -/
theorem delete_container_engine_false {st : Store} {c : String}
    (h : st.engine c = false) (cid : String) :
    (delete_container st cid).engine c = false := by
  simp only [delete_container, remove_container, Function.update_apply, h]
  split <;> rfl

/-- The release fold of `end_session` preserves absent markers. -/
theorem release_fold_allocation_false (sid : Nat)
    (l : List (String × String)) (st : Store) {c : String} {s : Nat}
    (h : st.allocation c s = false) :
    (l.foldl (fun acc p => release_container acc p.2 sid) st).allocation c s
      = false := by
  induction l generalizing st with
  | nil => exact h
  | cons q rest ih =>
      rw [List.foldl_cons]
      exact ih _ (release_container_allocation_false h q.2 sid)

/-- After the release fold, every listed pair's marker is gone. -/
theorem release_fold_marker_released (sid : Nat)
    (l : List (String × String)) (st : Store) (p : String × String)
    (hp : p ∈ l) :
    (l.foldl (fun acc q => release_container acc q.2 sid) st).allocation p.2 sid
      = false := by
  induction l generalizing st with
  | nil => cases hp
  | cons q rest ih =>
      rw [List.foldl_cons]
      rcases List.mem_cons.mp hp with heq | hmem
      · subst heq
        apply release_fold_allocation_false
        simp [release_container]
      · exact ih _ hmem

/-- The delete fold of `end_session` preserves absent markers. -/
theorem delete_fold_allocation_false (l : List String) (st : Store)
    {c : String} {s : Nat} (h : st.allocation c s = false) :
    (l.foldl (fun acc cid => delete_container acc cid) st).allocation c s
      = false := by
  induction l generalizing st with
  | nil => exact h
  | cons q rest ih =>
      rw [List.foldl_cons]
      exact ih _ (delete_container_allocation_false h q)

/-- The delete fold never resurrects a container in the engine. -/
theorem delete_fold_engine_false (l : List String) (st : Store) {c : String}
    (h : st.engine c = false) :
    (l.foldl (fun acc cid => delete_container acc cid) st).engine c = false := by
  induction l generalizing st with
  | nil => exact h
  | cons q rest ih =>
      rw [List.foldl_cons]
      exact ih _ (delete_container_engine_false h q)

/-- After the delete fold, every listed container is gone from the engine. -/
theorem delete_fold_engine_deleted (l : List String) (st : Store)
    (cid : String) (h : cid ∈ l) :
    (l.foldl (fun acc x => delete_container acc x) st).engine cid = false := by
  induction l generalizing st with
  | nil => cases h
  | cons q rest ih =>
      rw [List.foldl_cons]
      rcases List.mem_cons.mp h with heq | hmem
      · subst heq
        apply delete_fold_engine_false
        simp [delete_container, remove_container]
      · exact ih _ hmem

/-- C5: `end_session` on an existing session record releases, under the
owning subtype's allocation lock, the allocation marker of every
non-exclusive container of the session's container map; deletes outright
(never releases) every container listed in `exclusive_containers`; and
finally deletes the session record. -/
theorem end_session_releases_and_deletes (st : Store) (sid : Nat)
    (sess : SessionData) (hsess : get_session st sid = some sess) :
    (∀ sub cid, (sub, cid) ∈ sess.containers →
        cid ∉ sess.exclusive_containers →
        (end_session st sid).allocation cid sid = false)
    ∧ (∀ cid ∈ sess.exclusive_containers,
        (end_session st sid).engine cid = false)
    ∧ (end_session st sid).sessions sid = none := by
  simp only [end_session, hsess]
  refine ⟨?_, ?_, ?_⟩
  · intro sub cid hmem hnot
    simp only [delete_session]
    apply delete_fold_allocation_false
    exact release_fold_marker_released sid _ st (sub, cid)
      (List.mem_filter.mpr ⟨hmem, by simpa using hnot⟩)
  · intro cid hmem
    simp only [delete_session]
    exact delete_fold_engine_deleted _ _ cid hmem
  · simp [delete_session]

/-- Witness for C5 on `exampleStore`: the shared container's marker is
released, the exclusive container leaves the engine, the record is gone. -/
theorem end_session_releases_and_deletes_witness :
    (end_session exampleStore 5).allocation "cw" 5 = false
    ∧ (end_session exampleStore 5).engine "cx" = false
    ∧ (end_session exampleStore 5).sessions 5 = none := by
  have h := end_session_releases_and_deletes exampleStore 5 exampleSession rfl
  exact ⟨h.1 "web" "cw" (by simp [exampleSession]) (by simp [exampleSession]),
    h.2.1 "cx" (by simp [exampleSession]), h.2.2⟩

/-- `end_session` on an id with no session record only runs the final
`delete_session`, which is a no-op on the absent key. -/
theorem end_session_absent (st : Store) (sid : Nat)
    (h : st.sessions sid = none) : end_session st sid = st := by
  have hg : get_session st sid = none := h
  simp only [end_session, hg, delete_session]
  rw [← h, Function.update_eq_self]

/-- `end_session` always leaves the session record absent. -/
theorem end_session_sessions_none (st : Store) (sid : Nat) :
    (end_session st sid).sessions sid = none := by
  unfold end_session
  split <;> simp [delete_session]

/-- C10: `end_session` is idempotent — running it a second time after it has
completed finds the session record absent, releases or deletes no container,
raises no error, and leaves the store exactly as it was. -/
theorem end_session_idempotent (st : Store) (sid : Nat) :
    end_session (end_session st sid) sid = end_session st sid :=
  end_session_absent (end_session st sid) sid (end_session_sessions_none st sid)

/-- Looking up a key in a self-keyed association list built by `map`. -/
theorem lookup_map_self (f : String → String) (l : List String) (s : String)
    (h : s ∈ l) : (l.map fun t => (t, f t)).lookup s = some (f s) := by
  induction l with
  | nil => cases h
  | cons t rest ih =>
      by_cases hts : s = t
      · subst hts
        simp [List.lookup]
      · have hb : (s == t) = false := beq_eq_false_iff_ne.mpr hts
        rcases List.mem_cons.mp h with heq | hmem
        · exact absurd heq hts
        · simpa [List.lookup, hb] using ih hmem

/-- A key found in the left block of an appended association list. -/
theorem lookup_append_left (l₁ l₂ : List (String × String)) (s : String)
    (v : String) (h : l₁.lookup s = some v) :
    (l₁ ++ l₂).lookup s = some v := by
  induction l₁ with
  | nil => cases h
  | cons q rest ih =>
      obtain ⟨k, w⟩ := q
      by_cases hks : s = k
      · subst hks
        simpa [List.lookup] using h
      · have hb : (s == k) = false := beq_eq_false_iff_ne.mpr hks
        rw [List.cons_append]
        simp only [List.lookup, hb] at h ⊢
        exact ih h

/-- A key absent from the left block of an appended association list is
looked up in the right block. -/
theorem lookup_append_right (l₁ l₂ : List (String × String)) (s : String)
    (h : ∀ p ∈ l₁, p.1 ≠ s) : (l₁ ++ l₂).lookup s = l₂.lookup s := by
  induction l₁ with
  | nil => rfl
  | cons q rest ih =>
      obtain ⟨k, w⟩ := q
      have hks : s ≠ k := fun hh =>
        h (k, w) (List.mem_cons_self _ _) (by simp [hh])
      have hb : (s == k) = false := beq_eq_false_iff_ne.mpr hks
      rw [List.cons_append]
      simp only [List.lookup, hb]
      exact ih fun p hp => h p (List.mem_cons_of_mem _ hp)

/-- When every shared subtype's loop allocates, the shared phase succeeds. -/
theorem plan_shared_isSome (env : AllocEnv) (l : List String)
    (h : ∀ s ∈ l, ∃ c, allocate_shared env s = some c) :
    ∃ ps, plan_shared env l = some ps := by
  induction l with
  | nil => exact ⟨[], rfl⟩
  | cons s rest ih =>
      obtain ⟨c, hc⟩ := h s (List.mem_cons_self _ _)
      obtain ⟨ps, hps⟩ := ih fun t ht => h t (List.mem_cons_of_mem _ ht)
      exact ⟨(s, c) :: ps, by simp [plan_shared, hc, hps]⟩

/-- The shared phase records, for each shared subtype, exactly the container
returned by its retry loop. -/
theorem plan_shared_lookup (env : AllocEnv) (l : List String)
    (ps : List (String × String)) (hps : plan_shared env l = some ps)
    (s : String) (hs : s ∈ l) :
    ∃ c, allocate_shared env s = some c ∧ ps.lookup s = some c := by
  induction l generalizing ps with
  | nil => cases hs
  | cons t rest ih =>
      simp only [plan_shared] at hps
      cases hc : allocate_shared env t with
      | none => rw [hc] at hps; cases hps
      | some c =>
          rw [hc] at hps
          cases hrest : plan_shared env rest with
          | none => rw [hrest] at hps; cases hps
          | some ps₀ =>
              rw [hrest] at hps
              have hps2 : (t, c) :: ps₀ = ps := by simpa using hps
              subst hps2
              by_cases hts : s = t
              · subst hts
                exact ⟨c, hc, by simp [List.lookup]⟩
              · have hb : (s == t) = false := beq_eq_false_iff_ne.mpr hts
                rcases List.mem_cons.mp hs with heq | hmem
                · exact absurd heq hts
                · obtain ⟨c₀, hc₀, hl₀⟩ := ih ps₀ hrest hmem
                  exact ⟨c₀, hc₀, by simpa [List.lookup, hb] using hl₀⟩

/-- C6: for every requested subtype of `start_session`: when
`reuse_limit == 1`, or `reuse_limit != 0` and `immutable` is false, a
brand-new exclusive container is created for it and recorded in both the
session's container map and its `exclusive_containers` list (and allocated —
it appears in the `allocate_container` call log); otherwise the subtype is
handled through the shared pool. -/
theorem exclusive_allocation_path (env : AllocEnv) (immutable : Bool)
    (subtypes : List String) (s : String) (hmem : s ∈ subtypes)
    (hfresh : ∀ t, env.total_uses (env.fresh_shared t 0) = 0
        ∧ env.current_uses (env.fresh_shared t 0) = 0) :
    ∃ containers exclusives calls,
      start_session_plan env immutable subtypes
        = some (containers, exclusives, calls)
      ∧ (exclusive_path env immutable s = true →
          containers.lookup s = some (env.fresh_exclusive s)
          ∧ env.fresh_exclusive s ∈ exclusives
          ∧ env.fresh_exclusive s ∈ calls)
      ∧ (exclusive_path env immutable s = false →
          ∃ c, allocate_shared env s = some c
            ∧ containers.lookup s = some c) := by
  have hall : ∀ t ∈ subtypes.filter (fun t => !(exclusive_path env immutable t)),
      ∃ c, allocate_shared env t = some c := fun t _ =>
    allocation_loop_two_scans (env.reuse_limit t) (env.concurrency_limit t)
      env.total_uses env.current_uses (env.fresh_shared t) 0
      (env.candidates t) (hfresh t).1 (hfresh t).2
  obtain ⟨ps, hps⟩ := plan_shared_isSome env _ hall
  refine ⟨((subtypes.filter (exclusive_path env immutable)).map
      fun t => (t, env.fresh_exclusive t)) ++ ps,
    ((subtypes.filter (exclusive_path env immutable)).map
      fun t => (t, env.fresh_exclusive t)).map (fun p => p.2),
    ((subtypes.filter (exclusive_path env immutable)).map
      fun t => (t, env.fresh_exclusive t)).map (fun p => p.2)
      ++ ps.map (fun p => p.2),
    by simp only [start_session_plan, hps], ?_, ?_⟩
  · intro hcond
    have hsf : s ∈ subtypes.filter (exclusive_path env immutable) :=
      List.mem_filter.mpr ⟨hmem, hcond⟩
    refine ⟨?_, ?_, ?_⟩
    · exact lookup_append_left _ _ _ _
        (lookup_map_self (fun t => env.fresh_exclusive t) _ s hsf)
    · simp only [List.map_map]
      exact List.mem_map.mpr ⟨s, hsf, rfl⟩
    · refine List.mem_append_left _ ?_
      simp only [List.map_map]
      exact List.mem_map.mpr ⟨s, hsf, rfl⟩
  · intro hcond
    obtain ⟨c, hc, hl⟩ := plan_shared_lookup env _ ps hps s
      (List.mem_filter.mpr ⟨hmem, by simp [hcond]⟩)
    refine ⟨c, hc, ?_⟩
    rw [lookup_append_right]
    · exact hl
    · intro p hp
      obtain ⟨t, ht, rfl⟩ := List.mem_map.mp hp
      have hct := (List.mem_filter.mp ht).2
      intro hts
      have hts2 : t = s := hts
      subst hts2
      rw [hct] at hcond
      cases hcond

/-- Witness for C6 on `exampleAllocEnv`: "db" (reuse limit 1) takes the
exclusive path, "web" goes through the shared pool. -/
theorem exclusive_allocation_path_witness :
    ∃ containers exclusives calls,
      start_session_plan exampleAllocEnv true ["db", "web"]
        = some (containers, exclusives, calls)
      ∧ (exclusive_path exampleAllocEnv true "db" = true →
          containers.lookup "db"
            = some (exampleAllocEnv.fresh_exclusive "db")
          ∧ exampleAllocEnv.fresh_exclusive "db" ∈ exclusives
          ∧ exampleAllocEnv.fresh_exclusive "db" ∈ calls)
      ∧ (exclusive_path exampleAllocEnv true "db" = false →
          ∃ c, allocate_shared exampleAllocEnv "db" = some c
            ∧ containers.lookup "db" = some c) :=
  exclusive_allocation_path exampleAllocEnv true ["db", "web"] "db"
    (by simp) (fun t => ⟨rfl, rfl⟩)

/-- C8: the engine-call retry helper: on a transient status code (the
server-error / service-unavailable class of `_retryable_docker_statuses`) or
a transport-level timeout it resets the engine client and retries at most one
additional time — a call that fails transiently once then succeeds returns
success after exactly one reconnect; a non-transient engine error propagates
immediately with no reconnect, and a second consecutive failure propagates
after the single reconnect. -/
theorem docker_call_retry_policy {α : Type} (attempts : Nat → AttemptResult α)
    (st st' : Nat) (v : α) :
    (attempts 0 = AttemptResult.ok v →
        docker_call true attempts = CallOutcome.success v 0)
    ∧ (attempts 0 = AttemptResult.dockerError st →
        st ∈ retryable_docker_statuses → attempts 1 = AttemptResult.ok v →
        docker_call true attempts = CallOutcome.success v 1)
    ∧ (attempts 0 = AttemptResult.transportError →
        attempts 1 = AttemptResult.ok v →
        docker_call true attempts = CallOutcome.success v 1)
    ∧ (attempts 0 = AttemptResult.dockerError st →
        st ∉ retryable_docker_statuses →
        docker_call true attempts = CallOutcome.raisedDocker st 0)
    ∧ (attempts 0 = AttemptResult.dockerError st →
        st ∈ retryable_docker_statuses →
        attempts 1 = AttemptResult.dockerError st' →
        docker_call true attempts = CallOutcome.raisedDocker st' 1)
    ∧ (attempts 0 = AttemptResult.transportError →
        attempts 1 = AttemptResult.transportError →
        docker_call true attempts = CallOutcome.raisedTransport 1) := by
  refine ⟨?_, ?_, ?_, ?_, ?_, ?_⟩
  · intro h0
    simp [docker_call, docker_call_loop, h0]
  · intro h0 hmem h1
    simp [docker_call, docker_call_loop, h0, h1, hmem]
  · intro h0 h1
    simp [docker_call, docker_call_loop, h0, h1]
  · intro h0 hmem
    simp [docker_call, docker_call_loop, h0, hmem]
  · intro h0 hmem h1
    simp [docker_call, docker_call_loop, h0, h1, hmem]
  · intro h0 h1
    simp [docker_call, docker_call_loop, h0, h1]

/-- Witness for C8 on `exampleAttempts`: one retryable 503 then success
yields the value after exactly one client reset. -/
theorem docker_call_retry_policy_witness :
    docker_call true exampleAttempts = CallOutcome.success 7 1 :=
  (docker_call_retry_policy exampleAttempts 503 503 7).2.1 rfl (by decide) rfl

/-- C9: `interact` rejects with a 400-class error, without starting a turn,
when the session id is not in the running-session map, or when a turn is
already in flight for it (its agent lock is held), or when the session is
being cancelled — a second concurrent `interact` for the same session is
rejected, never queued: a turn starts only for a known session that is
neither locked nor cancelling. -/
theorem interact_rejects_unknown_or_busy
    (session_map : Nat → Option RunningSample) (sid : Nat) :
    (session_map sid = none →
        interact session_map sid = Except.error (400, "No such session"))
    ∧ (∀ r, session_map sid = some r → r.agent_lock_locked = true →
        interact session_map sid
          = Except.error (400, "Task Executing, please do not send new request."))
    ∧ (∀ r, session_map sid = some r → r.cancelling = true →
        interact session_map sid
          = Except.error (400, "Task Executing, please do not send new request."))
    ∧ (∀ t, interact session_map sid = Except.ok t →
        ∃ r, session_map sid = some r ∧ r.agent_lock_locked = false
          ∧ r.cancelling = false) := by
  refine ⟨?_, ?_, ?_, ?_⟩
  · intro h
    simp [interact, h]
  · intro r hr hl
    simp [interact, hr, hl]
  · intro r hr hc
    simp [interact, hr, hc]
  · intro t ht
    unfold interact at ht
    cases hm : session_map sid with
    | none => rw [hm] at ht; simp at ht
    | some r =>
        rw [hm] at ht
        by_cases hb : (r.agent_lock_locked || r.cancelling) = true
        · simp [hb] at ht
        · simp only [Bool.or_eq_true, not_or, Bool.not_eq_true] at hb
          exact ⟨r, rfl, hb.1, hb.2⟩

/-- Witness for C9 on `exampleSessionMap`: unknown id 0, busy id 1 and
cancelling id 2 are each rejected with a 400-class error. -/
theorem interact_rejects_unknown_or_busy_witness :
    interact exampleSessionMap 0 = Except.error (400, "No such session")
    ∧ interact exampleSessionMap 1
        = Except.error (400, "Task Executing, please do not send new request.")
    ∧ interact exampleSessionMap 2
        = Except.error (400, "Task Executing, please do not send new request.") :=
  ⟨(interact_rejects_unknown_or_busy exampleSessionMap 0).1 rfl,
    (interact_rejects_unknown_or_busy exampleSessionMap 1).2.1 ⟨true, false⟩ rfl rfl,
    (interact_rejects_unknown_or_busy exampleSessionMap 2).2.2.1 ⟨false, true⟩
      rfl rfl⟩

end MistralWorker
